import Mathlib

/-!
Shallow embedding of the calibration core of the `ycas` photometry pipeline
(`magnitude.py`), together with theorems checking the natural-language
specification of that module against the code.

Modelling conventions, used uniformly below:
* The source stores every record as a positional Python list (for example an
  extinction sample row is `[day, jd_time, inst_mag, std_mag, airmass, filter,
  obj_name]`, indexed by the `*_CE_CALC_DATA` column constants).  Here each of
  those row shapes is a Lean structure whose fields appear in the source's
  column order.
* Magnitude, airmass and coefficient values are IEEE floats in the source; they
  are modelled as exact rationals (`ℚ`).
* The textual sentinel `INDEF_VALUE` that marks an undefined instrumental or
  standard magnitude is modelled by `Option ℚ` (`none` = the sentinel, or a
  catalog column the source could not convert to a number).
* Python `set` accumulators (`days`, `filters`) are modelled as
  insertion-ordered duplicate-free lists; no statement below depends on the
  iteration order of these sets, only on membership.
* List indexing `l[i]` is modelled with `List.getD`; the theorems that depend
  on an index are stated (and proved) together with the bound that makes the
  access in the source well defined.
-/

/-- A filter name, as compared against `B_FILTER_NAME`, `V_FILTER_NAME` and
`R_FILTER_NAME` in the source; any other filter directory name is `other`. -/
inductive Filt where
  | B
  | V
  | R
  | other (name : String)
deriving DecidableEq, Repr

/-- A Julian-date timestamp string of the form `D.fff`: the characters before
the dot (an integer), the first decimal digit after the dot, and the remaining
decimal digits.  `get_day_of_measurement` reads exactly these pieces of the
string. -/
structure JDTime where
  intPart : ℤ
  firstDecimal : ℕ
  restDecimals : List ℕ
deriving DecidableEq, Repr

/-- A catalog object row (`objects.tsv`): name, standard flag
(`OBJ_STANDARD_COL == STANDARD_VALUE`), and the standard magnitude columns for
the B, V and R filters. -/
structure CatalogObject where
  name : String
  is_standard : Bool
  b_mag : Option ℚ
  v_mag : Option ℚ
  r_mag : Option ℚ
deriving DecidableEq, Repr

instance : Inhabited CatalogObject := ⟨⟨"", false, none, none, none⟩⟩

/-- One row produced by `get_inst_magnitudes_for_object`:
`[time, mag, airmass, filter]` (columns `JD_TIME_COL`, `INST_MAG_COL`,
`AIRMASS_COL`, `FILTER_COL`). -/
structure InstMeasurement where
  jd_time : JDTime
  inst_mag : Option ℚ
  airmass : ℚ
  filt : Filt
deriving DecidableEq, Repr

/-- Embeds `get_day_of_measurement` (magnitude.py:302).  The source finds the
dot, takes the first decimal digit `d`, and returns `D - 1` when
`0 <= d <= 4`, else `D`. -/
def get_day_of_measurement (time_jd : JDTime) : ℤ :=
  if 0 ≤ time_jd.firstDecimal ∧ time_jd.firstDecimal ≤ 4 then
    time_jd.intPart - 1
  else
    time_jd.intPart

/-- Embeds `get_standard_magnitude` (magnitude.py:327): select the catalog
column for the filter; `none` for a filter with no standard-magnitude column. -/
def get_standard_magnitude (object_data : CatalogObject) (filt : Filt) :
    Option ℚ :=
  match filt with
  | Filt.B => object_data.b_mag
  | Filt.V => object_data.v_mag
  | Filt.R => object_data.r_mag
  | Filt.other _ => none

/-- Ordinary least squares fit of `y` against `x`, the behaviour of
`scipy.stats.linregress` on the lists of x and y values: returns
`(slope, intercept)` with `slope = (n·Σxy − Σx·Σy) / (n·Σx² − (Σx)²)` and
`intercept = ȳ − slope·x̄`.  (In `ℚ` a division by zero yields `0` where the
floating-point primitive would yield NaN.) -/
def linregress (xs ys : List ℚ) : ℚ × ℚ :=
  let n : ℚ := xs.length
  let sx := xs.sum
  let sy := ys.sum
  let sxy := (List.zipWith (· * ·) xs ys).sum
  let sxx := (xs.map (fun x => x * x)).sum
  let slope := (n * sxy - sx * sy) / (n * sxx - sx * sx)
  (slope, (sy - slope * sx) / n)

/-- One extinction-fit sample row, built at magnitude.py:443 as
`[day, jd_time, inst_mag, std_mag, airmass, filter, obj_name]` (the
`*_CE_CALC_DATA` columns, in that order). -/
structure ExtCoefData where
  day : ℤ
  jd_time : JDTime
  inst_mag : ℚ
  std_mag : ℚ
  airmass : ℚ
  filt : Filt
  obj_name : String
deriving DecidableEq, Repr

/-- Embeds `calculate_extinction_coefficient` (magnitude.py:346): regress
`y = inst_mag − std_mag` against airmass.  The source first sorts the rows by
the JD-time column; sorting only permutes the rows and the regression sums are
invariant under permutation, so the sort is not modelled. -/
def calculate_extinction_coefficient (mag_data : List ExtCoefData) : ℚ × ℚ :=
  linregress (mag_data.map (fun m => m.airmass))
    (mag_data.map (fun m => m.inst_mag - m.std_mag))

/-- Embeds `valid_data_to_calculate_ext_cof` (magnitude.py:380):
`return slope > 0.0`. -/
def valid_data_to_calculate_ext_cof (obj_data_for_ext_coef : List ExtCoefData) :
    Bool :=
  decide (0 < (calculate_extinction_coefficient obj_data_for_ext_coef).1)

/-- One extinction coefficient record, built at magnitude.py:481 as
`[day, filter, slope, intercept]` (the `*_CE_DATA` columns). -/
structure ExtCoefRecord where
  day : ℤ
  filt : Filt
  slope : ℚ
  intercept : ℚ
deriving DecidableEq, Repr

/-- Embeds `get_extinction_coefficient` (magnitude.py:487): filter the records
by day and filter; if none matches, fall back to `slope = 1.0`,
`intercept = 0.0`; otherwise take the first match. -/
def get_extinction_coefficient (ext_coef : List ExtCoefRecord) (day : ℤ)
    (filt : Filt) : ℚ × ℚ :=
  match ext_coef.filter (fun e => e.day == day && e.filt == filt) with
  | [] => (1, 0)
  | e :: _ => (e.slope, e.intercept)

/-- One extinction-corrected magnitude row, built at magnitude.py:574 as
`[jd_time, day, corrected_mag, inst_mag, filter]` (the `*_CEM_COL` columns). -/
structure CorrMeasurement where
  jd_time : JDTime
  day : ℤ
  ce_mag : ℚ
  inst_mag : ℚ
  filt : Filt
deriving DecidableEq, Repr

instance : Inhabited CorrMeasurement :=
  ⟨⟨⟨0, 0, []⟩, 0, 0, 0, Filt.B⟩⟩

/-- Embeds `get_extinction_corrected_mag` (magnitude.py:540): for every
measurement in every sublist, if the instrumental magnitude is defined, look up
the (day, filter) coefficients and append
`[jd_time, day, inst − intercept − slope·airmass, inst, filter]`; an undefined
magnitude only logs a diagnostic.  (The save of the resulting rows to the
per-object file is not part of this value.) -/
def get_extinction_corrected_mag (_obj : CatalogObject)
    (object_inst_mags : List (List InstMeasurement))
    (ext_coef : List ExtCoefRecord) : List CorrMeasurement :=
  object_inst_mags.foldl
    (fun magnitudes inst_mag =>
      inst_mag.foldl
        (fun magnitudes im =>
          match im.inst_mag with
          | some m =>
            let day := get_day_of_measurement im.jd_time
            let sc := get_extinction_coefficient ext_coef day im.filt
            magnitudes ++
              [⟨im.jd_time, day, m - sc.2 - sc.1 * im.airmass, m, im.filt⟩]
          | none => magnitudes)
        magnitudes)
    []

/-- Append an element to an insertion-ordered duplicate-free list, modelling
`set.add` in the source. -/
def insertOnce {α : Type} [DecidableEq α] (l : List α) (a : α) : List α :=
  if a ∈ l then l else l ++ [a]

/-- The mutable state accumulated across standard objects inside
`extinction_coefficient` (magnitude.py:395): the `days` and `filters` sets and
the list `calc_data_for_ext_coef` of accepted (object, day) sample sets. -/
structure ExtState where
  days : List ℤ
  filters : List Filt
  calc_data : List (List ExtCoefData)
deriving DecidableEq, Repr

/-- Embeds the inner measurement loop of `extinction_coefficient`
(magnitude.py:423-455): derive and record the day, and when both the standard
magnitude and the instrumental magnitude are defined, record the filter and
append the sample row `[day, jd_time, inst_mag, std_mag, airmass, filter,
obj_name]`; otherwise only a diagnostic is logged. -/
def processMeasurement (obj : CatalogObject)
    (acc : List ℤ × List Filt × List ExtCoefData) (im : InstMeasurement) :
    List ℤ × List Filt × List ExtCoefData :=
  let day := get_day_of_measurement im.jd_time
  let days := insertOnce acc.1 day
  match get_standard_magnitude obj im.filt, im.inst_mag with
  | some std_mag, some m =>
    (days, insertOnce acc.2.1 im.filt,
      acc.2.2 ++ [⟨day, im.jd_time, m, std_mag, im.airmass, im.filt, obj.name⟩])
  | some _, none => (days, acc.2.1, acc.2.2)
  | none, _ => (days, acc.2.1, acc.2.2)

/-- Embeds the per-object day loop of `extinction_coefficient`
(magnitude.py:459-469): for each day seen so far, take this object's sample
rows for that day; a nonempty subset is appended to the accepted pool exactly
when `valid_data_to_calculate_ext_cof` holds, and discarded (with a diagnostic)
otherwise. -/
def acceptSubsets (days : List ℤ) (obj_data_for_ext_coef : List ExtCoefData) :
    List (List ExtCoefData) :=
  days.foldl
    (fun cd d =>
      let data_subset := obj_data_for_ext_coef.filter (fun m => m.day == d)
      if 0 < data_subset.length then
        if valid_data_to_calculate_ext_cof data_subset then
          cd ++ [data_subset]
        else cd
      else cd)
    []

/-- Embeds one iteration of the standard-object loop of
`extinction_coefficient` (magnitude.py:413-469); the accepted subsets of this
object are appended to the pool accumulated so far. -/
def processObject (objects : List CatalogObject)
    (instrumental_magnitudes : List (List (List InstMeasurement)))
    (st : ExtState) (i : ℕ) : ExtState :=
  let obj := objects.getD i default
  let object_inst_mags := instrumental_magnitudes.getD i []
  let a := object_inst_mags.flatten.foldl (processMeasurement obj)
    (st.days, st.filters, [])
  ⟨a.1, a.2.1, st.calc_data ++ acceptSubsets a.1 a.2.2⟩

/-- The state after the whole standard-object loop of
`extinction_coefficient` (magnitude.py:403-469), before the pooling step. -/
def extinctionPoolState (objects : List CatalogObject)
    (standard_obj_index : List ℕ)
    (instrumental_magnitudes : List (List (List InstMeasurement))) : ExtState :=
  standard_obj_index.foldl (processObject objects instrumental_magnitudes)
    ⟨[], [], []⟩

/-- The comparison performed by the pooling filter of
`extinction_coefficient` (magnitude.py:474-475):
`m[DAY_CE_CALC_DATA] == d and m[FILTER_CE_CALC_DATA] == f`.  There `m` ranges
over `calc_data_for_ext_coef`, whose elements are whole (object, day) sample
sets, so `m[DAY_CE_CALC_DATA]` is a sample row (a Python list), compared
against the day string `d`, and `m[FILTER_CE_CALC_DATA]` is another sample row
compared against the filter string `f`.  A Python `==` between a list and a
string is `False`, so the predicate never holds. -/
def poolMatches (_m : List ExtCoefData) (_d : ℤ) (_f : Filt) : Bool :=
  false

/-- Embeds `extinction_coefficient` (magnitude.py:395-485), returning
`(ext_coef, days, filters)`.  The pooling branch filters the accepted pool
with `poolMatches`, which never selects anything, so the inner fit call is
unreachable; were it reached, the source would pass the nested list itself to
`calculate_extinction_coefficient` (which would fail on it), modelled here by
fitting the concatenation of the selected sets. -/
def extinction_coefficient (objects : List CatalogObject)
    (standard_obj_index : List ℕ)
    (instrumental_magnitudes : List (List (List InstMeasurement))) :
    List ExtCoefRecord × List ℤ × List Filt :=
  let st := extinctionPoolState objects standard_obj_index
    instrumental_magnitudes
  let ext_coef :=
    if 0 < st.calc_data.length then
      st.days.foldl
        (fun acc d =>
          st.filters.foldl
            (fun acc2 f =>
              let mag := st.calc_data.filter (fun m => poolMatches m d f)
              if 0 < mag.length then
                let sc := calculate_extinction_coefficient mag.flatten
                acc2 ++ [⟨d, f, sc.1, sc.2⟩]
              else acc2)
            acc)
        []
    else []
  (ext_coef, st.days, st.filters)

/-- Embeds `get_indexes_of_std_and_no_std` (magnitude.py:511): split the
positions `0, ..., len(objects) - 1` by the standard flag.  (The save of each
object's instrumental magnitudes to a file is not modelled.) -/
def get_indexes_of_std_and_no_std (objects : List CatalogObject) :
    List ℕ × List ℕ :=
  ((List.range objects.length).filter
      (fun i => (objects.getD i default).is_standard),
    (List.range objects.length).filter
      (fun i => !(objects.getD i default).is_standard))

/-- The mean of a list of values, the behaviour of `np.mean` on the magnitude
vectors. -/
def np_mean (l : List ℚ) : ℚ :=
  l.sum / l.length

/-- Embeds `calculate_transforming_coefficients` (magnitude.py:585): fit
`Vstd − V0 = slope1·(B−V)std + intercept1` and
`(B−V)std = slope2·(B−V)obs + intercept2`, returning
`(slope1, intercept1, slope2, intercept2)`; the elementwise numpy subtraction
is a `zipWith`. -/
def calculate_transforming_coefficients (B_V_observed_mag V_observed_mag
    B_V_std_mag V_std_mag : List ℚ) : ℚ × ℚ × ℚ × ℚ :=
  let y := List.zipWith (· - ·) V_std_mag V_observed_mag
  let fit1 := linregress B_V_std_mag y
  let fit2 := linregress B_V_observed_mag B_V_std_mag
  (fit1.1, fit1.2, fit2.1, fit2.2)

/-- One transformation coefficient record, built at magnitude.py:698 as
`[day, c1, c2, c3, c4]` (the `*_TRANS_COEF_COL` columns). -/
structure TransCoefRecord where
  day : ℤ
  c1 : ℚ
  c2 : ℚ
  c3 : ℚ
  c4 : ℚ
deriving DecidableEq, Repr

/-- Embeds the accumulation loop over standard objects inside
`get_transforming_coefficients` for one day (magnitude.py:639-685).  For the
`i`-th standard object, position `i` of `ext_corr_mags` holds its corrected
magnitudes; when its B-filter and V-filter rows for the day have equal nonzero
counts, `(B_mean − V_mean, V_mean, Bstd − Vstd, Vstd)` are pushed onto the four
per-day accumulator lists, else the object is skipped with a diagnostic.
Returns `(B_V_mags_of_day, V_mags_of_day, B_V_std_mags_of_objects,
V_std_mags_of_objects)`. -/
def day_accumulators (objects : List CatalogObject)
    (standard_obj_index : List ℕ)
    (ext_corr_mags : List (List CorrMeasurement)) (d : ℤ) :
    List ℚ × List ℚ × List ℚ × List ℚ :=
  (List.range standard_obj_index.length).foldl
    (fun acc i =>
      let object_index := standard_obj_index.getD i 0
      let obj_mags := ext_corr_mags.getD i []
      let mags_of_B_filter :=
        obj_mags.filter (fun m => m.day == d && m.filt == Filt.B)
      let mags_of_V_filter :=
        obj_mags.filter (fun m => m.day == d && m.filt == Filt.V)
      if 0 < mags_of_B_filter.length ∧ 0 < mags_of_V_filter.length ∧
          mags_of_B_filter.length = mags_of_V_filter.length then
        let B_mean := np_mean (mags_of_B_filter.map (fun m => m.ce_mag))
        let V_mean := np_mean (mags_of_V_filter.map (fun m => m.ce_mag))
        let B_std := ((objects.getD object_index default).b_mag).getD 0
        let V_std := ((objects.getD object_index default).v_mag).getD 0
        (acc.1 ++ [B_mean - V_mean], acc.2.1 ++ [V_mean],
          acc.2.2.1 ++ [B_std - V_std], acc.2.2.2 ++ [V_std])
      else acc)
    ([], [], [], [])

/-- Embeds `get_transforming_coefficients` (magnitude.py:611-704): for each
day, build the four accumulator lists over the standard objects; when more than
one object contributed (`len(V_mags_of_day) > 1`), fit the transforming
coefficients and append `[day, c1, c2, c3, c4]`, otherwise only a diagnostic is
logged.  The `filters` argument is received but never used, as in the source. -/
def get_transforming_coefficients (objects : List CatalogObject)
    (standard_obj_index : List ℕ)
    (ext_corr_mags : List (List CorrMeasurement)) (days : List ℤ)
    (_filters : List Filt) : List TransCoefRecord :=
  days.foldl
    (fun trans_coef d =>
      let a := day_accumulators objects standard_obj_index ext_corr_mags d
      if 1 < a.2.1.length then
        let c := calculate_transforming_coefficients a.1 a.2.1 a.2.2.1 a.2.2.2
        trans_coef ++ [⟨d, c.1, c.2.1, c.2.2.1, c.2.2.2⟩]
      else trans_coef)
    []

/-- One calibrated magnitude row, built at magnitude.py:768 and 777 as
`[jd_time, calibrated_mag, corrected_mag, inst_mag, filter]`. -/
structure CalRow where
  jd_time : JDTime
  cal_mag : ℚ
  ce_mag : ℚ
  inst_mag : ℚ
  filt : Filt
deriving DecidableEq, Repr

instance : Inhabited CalRow :=
  ⟨⟨⟨0, 0, []⟩, 0, 0, 0, Filt.B⟩⟩

/-- One call of `save_magnitudes` made by `calibrated_magnitudes`
(magnitude.py:784): the object name the rows are attributed to (which fixes
the output file name), the day of the transformation record used, and the
calibrated rows written. -/
structure CalEmission where
  objName : String
  day : ℤ
  rows : List CalRow
deriving DecidableEq, Repr

instance : Inhabited CalEmission := ⟨⟨"", 0, []⟩⟩

/-- Embeds one (object position, transformation record) step of
`calibrated_magnitudes` (magnitude.py:716-788).  Note the source's double
indexing: the loop variable `i` is a value of `obj_indexes`, the magnitudes
are `ext_corr_mags[i]`, and the object the output is attributed to is
`objects[obj_indexes[i]]`.  When the B and V rows of the day have equal
nonzero counts, the calibrated rows (one per B sample, then one per V sample)
are produced from `B_V_cal = c3·(B − V) + c4`, `V_cal = V + c1·B_V_cal + c2`
and `B_cal = B_V_cal + V_cal`, computed elementwise over the paired vectors;
otherwise nothing is produced for this object and day. -/
def cal_for_object_day (objects : List CatalogObject) (obj_indexes : List ℕ)
    (ext_corr_mags : List (List CorrMeasurement)) (i : ℕ)
    (tc : TransCoefRecord) : Option CalEmission :=
  let obj_mags := ext_corr_mags.getD i []
  let obj := objects.getD (obj_indexes.getD i 0) default
  let mags_of_B_filter :=
    obj_mags.filter (fun m => m.day == tc.day && m.filt == Filt.B)
  let mags_of_V_filter :=
    obj_mags.filter (fun m => m.day == tc.day && m.filt == Filt.V)
  if 0 < mags_of_B_filter.length ∧ 0 < mags_of_V_filter.length ∧
      mags_of_B_filter.length = mags_of_V_filter.length then
    let pairs := mags_of_B_filter.zip mags_of_V_filter
    let bRows := pairs.map (fun p =>
      let B_V_cal := tc.c3 * (p.1.ce_mag - p.2.ce_mag) + tc.c4
      let V_cal := p.2.ce_mag + tc.c1 * B_V_cal + tc.c2
      CalRow.mk p.1.jd_time (B_V_cal + V_cal) p.1.ce_mag p.1.inst_mag p.1.filt)
    let vRows := pairs.map (fun p =>
      let B_V_cal := tc.c3 * (p.1.ce_mag - p.2.ce_mag) + tc.c4
      let V_cal := p.2.ce_mag + tc.c1 * B_V_cal + tc.c2
      CalRow.mk p.2.jd_time V_cal p.2.ce_mag p.2.inst_mag p.2.filt)
    some ⟨obj.name, tc.day, bRows ++ vRows⟩
  else none

/-- Embeds `calibrated_magnitudes` (magnitude.py:706-788) as the sequence of
`save_magnitudes` calls it performs: for each `i` in `obj_indexes` and each
transformation record, `cal_for_object_day` may contribute one emission. -/
def calibrated_magnitudes (objects : List CatalogObject)
    (obj_indexes : List ℕ) (ext_corr_mags : List (List CorrMeasurement))
    (trans_coef : List TransCoefRecord) : List CalEmission :=
  obj_indexes.flatMap (fun i =>
    trans_coef.filterMap (fun tc =>
      cal_for_object_day objects obj_indexes ext_corr_mags i tc))

/-- Embeds one `save_magnitudes` call (magnitude.py:213) on the store of
per-object calibrated output files: the file is opened with mode `'w'`, so the
previous contents of that object's file are replaced by the rows written.  The
store is keyed by the object name (the actual file name,
`object_name + CAL_MAG_SUFFIX + ".tsv"`, is an injective function of it). -/
def save_magnitudes_w (files : String → Option (List CalRow))
    (object_name : String) (rows : List CalRow) :
    String → Option (List CalRow) :=
  fun n => if n = object_name then some rows else files n

/-- The per-object calibrated output files after `calibrated_magnitudes` has
run: every emission is written, in order, each write replacing the file's
previous contents. -/
def calibrated_files (objects : List CatalogObject) (obj_indexes : List ℕ)
    (ext_corr_mags : List (List CorrMeasurement))
    (trans_coef : List TransCoefRecord)
    (files0 : String → Option (List CalRow)) : String → Option (List CalRow) :=
  (calibrated_magnitudes objects obj_indexes ext_corr_mags trans_coef).foldl
    (fun files e => save_magnitudes_w files e.objName e.rows) files0

/-- Embeds `calculate_calibrated_mag` (magnitude.py:790-833): correct the
standard objects, fit the transformation coefficients from the corrected
magnitudes of the standard objects only, then correct the non-standard objects
and calibrate everything with `obj_indexes = standard ++ non-standard`. -/
def calculate_calibrated_mag (objects : List CatalogObject)
    (standard_obj_index no_standard_obj_index : List ℕ)
    (instrumental_magnitudes : List (List (List InstMeasurement)))
    (ext_coef : List ExtCoefRecord) (days : List ℤ) (filters : List Filt) :
    List CalEmission :=
  let corrOf := fun i => get_extinction_corrected_mag (objects.getD i default)
    (instrumental_magnitudes.getD i []) ext_coef
  let std_corr := standard_obj_index.map corrOf
  let trans_coef := get_transforming_coefficients objects standard_obj_index
    std_corr days filters
  let ext_corr_mags := std_corr ++ no_standard_obj_index.map corrOf
  let obj_indexes := standard_obj_index ++ no_standard_obj_index
  calibrated_magnitudes objects obj_indexes ext_corr_mags trans_coef

/-- Embeds `process_instrumental_magnitudes` (magnitude.py:835): split the
objects into standard and non-standard, compute the extinction coefficients
from the standard ones, then calibrate. -/
def process_instrumental_magnitudes (objects : List CatalogObject)
    (instrumental_magnitudes : List (List (List InstMeasurement))) :
    List CalEmission :=
  let idx := get_indexes_of_std_and_no_std objects
  let ec := extinction_coefficient objects idx.1 instrumental_magnitudes
  calculate_calibrated_mag objects idx.1 idx.2 instrumental_magnitudes
    ec.1 ec.2.1 ec.2.2

/-- The filter selections `mags_of_B_filter` used at magnitude.py:647 and
magnitude.py:736: the corrected magnitudes of an object for a day in the B
filter. -/
def mags_of_B_filter (obj_mags : List CorrMeasurement) (d : ℤ) :
    List CorrMeasurement :=
  obj_mags.filter (fun m => m.day == d && m.filt == Filt.B)

/-- The filter selections `mags_of_V_filter` used at magnitude.py:651 and
magnitude.py:740: the corrected magnitudes of an object for a day in the V
filter. -/
def mags_of_V_filter (obj_mags : List CorrMeasurement) (d : ℤ) :
    List CorrMeasurement :=
  obj_mags.filter (fun m => m.day == d && m.filt == Filt.V)

/-- The extinction correction of a single measurement as §4.4 of the
specification words it: skip an undefined instrumental magnitude, otherwise
look up the (day, filter) coefficients and emit
`[jd_time, day, inst − intercept − slope·airmass, inst, filter]`. -/
def correctedRowSpec (ext_coef : List ExtCoefRecord) (im : InstMeasurement) :
    Option CorrMeasurement :=
  im.inst_mag.map (fun m =>
    let day := get_day_of_measurement im.jd_time
    let sc := get_extinction_coefficient ext_coef day im.filt
    ⟨im.jd_time, day, m - sc.2 - sc.1 * im.airmass, m, im.filt⟩)

theorem corr_inner_fold (ext_coef : List ExtCoefRecord)
    (l : List InstMeasurement) :
    ∀ acc : List CorrMeasurement,
      l.foldl
        (fun magnitudes im =>
          match im.inst_mag with
          | some m =>
            let day := get_day_of_measurement im.jd_time
            let sc := get_extinction_coefficient ext_coef day im.filt
            magnitudes ++
              [⟨im.jd_time, day, m - sc.2 - sc.1 * im.airmass, m, im.filt⟩]
          | none => magnitudes)
        acc = acc ++ l.filterMap (correctedRowSpec ext_coef) := by
  induction l with
  | nil => intro acc; simp
  | cons im t ih =>
    intro acc
    rw [List.foldl_cons, List.filterMap_cons]
    cases h : im.inst_mag with
    | none => simp only [h, correctedRowSpec, Option.map_none]; rw [ih]; simp [h]
    | some m =>
      simp only [h, correctedRowSpec, Option.map_some]
      rw [ih]
      simp [h, correctedRowSpec]

/-- C4: for every measurement of every object with a defined instrumental
magnitude, the corrected magnitude is
`instrumental − intercept − slope·airmass` with the coefficients looked up for
the measurement's (day, filter); measurements with the undefined sentinel
produce no corrected measurement. -/
theorem corrected_mag_formula (obj : CatalogObject)
    (object_inst_mags : List (List InstMeasurement))
    (ext_coef : List ExtCoefRecord) :
    get_extinction_corrected_mag obj object_inst_mags ext_coef =
      object_inst_mags.flatten.filterMap (correctedRowSpec ext_coef) := by
  unfold get_extinction_corrected_mag
  suffices h : ∀ acc : List CorrMeasurement,
      object_inst_mags.foldl
        (fun magnitudes inst_mag =>
          inst_mag.foldl
            (fun magnitudes im =>
              match im.inst_mag with
              | some m =>
                let day := get_day_of_measurement im.jd_time
                let sc := get_extinction_coefficient ext_coef day im.filt
                magnitudes ++
                  [⟨im.jd_time, day, m - sc.2 - sc.1 * im.airmass, m, im.filt⟩]
              | none => magnitudes)
            magnitudes)
        acc = acc ++ object_inst_mags.flatten.filterMap (correctedRowSpec ext_coef) by
    simpa using h []
  induction object_inst_mags with
  | nil => intro acc; simp
  | cons l t ih =>
    intro acc
    rw [List.foldl_cons, corr_inner_fold, ih]
    simp [List.filterMap_append]

/-- C3: the observation night of a timestamp `D.fff` is `D − 1` when the first
decimal digit is in `[0, 4]` and `D` otherwise; in particular `10.39` gives
night `9`, `10.5` gives night `10` and `10.0` gives night `9`. -/
theorem day_assignment_rule :
    (∀ t : JDTime, get_day_of_measurement t =
      if t.firstDecimal ≤ 4 then t.intPart - 1 else t.intPart) ∧
    get_day_of_measurement ⟨10, 3, [9]⟩ = 9 ∧
    get_day_of_measurement ⟨10, 5, []⟩ = 10 ∧
    get_day_of_measurement ⟨10, 0, []⟩ = 9 := by
  refine ⟨fun t => ?_, by decide, by decide, by decide⟩
  by_cases h : t.firstDecimal ≤ 4 <;> simp [get_day_of_measurement, h]

/-- C1: at a (day, filter) with no extinction coefficient record the fallback
coefficients slope = 1, intercept = 0 are indeed used, but they are not a
no-op: for an instrumental magnitude 10 at airmass 2 the code produces the
corrected magnitude `10 − 0 − 1·2 = 8`, which differs from the instrumental
magnitude, contradicting the claim (and the source's own comment at
magnitude.py:495). -/
theorem extinction_fallback_not_noop :
    get_extinction_coefficient [] 5 Filt.B = (1, 0) ∧
    get_extinction_corrected_mag default
        [[⟨⟨5, 5, []⟩, some 10, 2, Filt.B⟩]] [] =
      [⟨⟨5, 5, []⟩, 5, 8, 10, Filt.B⟩] ∧
    (8 : ℚ) ≠ 10 := by
  refine ⟨rfl, by with_unfolding_all decide, by with_unfolding_all decide⟩

theorem pooling_inner_fold (cd : List (List ExtCoefData)) (d : ℤ) :
    ∀ (fs : List Filt) (acc : List ExtCoefRecord),
      fs.foldl
        (fun acc2 f =>
          let mag := cd.filter (fun m => poolMatches m d f)
          if 0 < mag.length then
            let sc := calculate_extinction_coefficient mag.flatten
            acc2 ++ [⟨d, f, sc.1, sc.2⟩]
          else acc2)
        acc = acc := by
  intro fs
  induction fs with
  | nil => intro acc; rfl
  | cons f t ih =>
    intro acc
    rw [List.foldl_cons]
    have hmag : cd.filter (fun m => poolMatches m d f) = [] := by
      simp [poolMatches]
    simp only [hmag, List.length_nil, lt_irrefl, if_false]
    exact ih acc

theorem pooling_outer_fold (cd : List (List ExtCoefData)) (fs : List Filt) :
    ∀ (ds : List ℤ) (acc : List ExtCoefRecord),
      ds.foldl
        (fun acc d =>
          fs.foldl
            (fun acc2 f =>
              let mag := cd.filter (fun m => poolMatches m d f)
              if 0 < mag.length then
                let sc := calculate_extinction_coefficient mag.flatten
                acc2 ++ [⟨d, f, sc.1, sc.2⟩]
              else acc2)
            acc)
        acc = acc := by
  intro ds
  induction ds with
  | nil => intro acc; rfl
  | cons d t ih =>
    intro acc
    rw [List.foldl_cons, pooling_inner_fold]
    exact ih acc

theorem ext_coef_always_empty (objects : List CatalogObject)
    (standard_obj_index : List ℕ)
    (instrumental_magnitudes : List (List (List InstMeasurement))) :
    (extinction_coefficient objects standard_obj_index
      instrumental_magnitudes).1 = [] := by
  unfold extinction_coefficient
  by_cases h : 0 < (extinctionPoolState objects standard_obj_index
      instrumental_magnitudes).calc_data.length
  · simp only [h, if_true]
    exact pooling_outer_fold _ _ _ []
  · simp only [h, if_false]

/-- C2: the pooling step never produces any ExtinctionCoefficientRecord: its
filter compares whole (object, day) sample sets against the day and the
filter, which is always false, so `ext_coef` is empty for every input — in
particular for a concrete run whose accepted pool does contain samples for the
group (day 5, filter B), where the claim requires a record carrying the pooled
OLS fit. -/
theorem pooling_produces_no_records :
    (∀ (objects : List CatalogObject) (standard_obj_index : List ℕ)
        (instrumental_magnitudes : List (List (List InstMeasurement))),
      (extinction_coefficient objects standard_obj_index
        instrumental_magnitudes).1 = []) ∧
    ((extinctionPoolState [⟨"e1", true, some 10, some 9, none⟩] [0]
        [[[⟨⟨5, 5, []⟩, some 11, 1, Filt.B⟩,
           ⟨⟨5, 6, []⟩, some (25/2), 2, Filt.B⟩]]]).calc_data.flatten.filter
      (fun m => m.day == 5 && m.filt == Filt.B)) ≠ [] := by
  refine ⟨ext_coef_always_empty, by with_unfolding_all decide⟩

theorem mem_accept_fold (od : List ExtCoefData) :
    ∀ (days : List ℤ) (acc : List (List ExtCoefData)) (s : List ExtCoefData),
      s ∈ days.foldl
        (fun cd d =>
          let data_subset := od.filter (fun m => m.day == d)
          if 0 < data_subset.length then
            if valid_data_to_calculate_ext_cof data_subset then
              cd ++ [data_subset]
            else cd
          else cd)
        acc →
      s ∈ acc ∨ (s ≠ [] ∧ valid_data_to_calculate_ext_cof s = true) := by
  intro days
  induction days with
  | nil => intro acc s h; exact Or.inl h
  | cons d t ih =>
    intro acc s h
    rw [List.foldl_cons] at h
    rcases ih _ s h with h' | h'
    · by_cases h1 : 0 < (od.filter (fun m => m.day == d)).length
      · by_cases h2 :
          valid_data_to_calculate_ext_cof (od.filter (fun m => m.day == d)) = true
        · simp only [h1, if_true, h2] at h'
          rcases List.mem_append.mp h' with h'' | h''
          · exact Or.inl h''
          · right
            have hs : s = od.filter (fun m => m.day == d) := by
              simpa using h''
            subst hs
            exact ⟨List.ne_nil_of_length_pos h1, h2⟩
        · simp only [h1, if_true, if_neg h2] at h'
          exact Or.inl h'
      · simp only [if_neg h1] at h'
        exact Or.inl h'
    · exact Or.inr h'

theorem mem_accept_fold_mono (od : List ExtCoefData) :
    ∀ (days : List ℤ) (acc : List (List ExtCoefData)) (s : List ExtCoefData),
      s ∈ acc →
      s ∈ days.foldl
        (fun cd d =>
          let data_subset := od.filter (fun m => m.day == d)
          if 0 < data_subset.length then
            if valid_data_to_calculate_ext_cof data_subset then
              cd ++ [data_subset]
            else cd
          else cd)
        acc := by
  intro days
  induction days with
  | nil => intro acc s h; exact h
  | cons d t ih =>
    intro acc s h
    rw [List.foldl_cons]
    apply ih
    by_cases h1 : 0 < (od.filter (fun m => m.day == d)).length
    · by_cases h2 :
        valid_data_to_calculate_ext_cof (od.filter (fun m => m.day == d)) = true
      · simp only [h1, if_true, h2]
        exact List.mem_append_left _ h
      · simp only [h1, if_true, if_neg h2]
        exact h
    · simp only [if_neg h1]
      exact h

theorem mem_accept_fold_complete (od : List ExtCoefData) :
    ∀ (days : List ℤ) (acc : List (List ExtCoefData)) (d : ℤ),
      d ∈ days →
      0 < (od.filter (fun m => m.day == d)).length →
      valid_data_to_calculate_ext_cof (od.filter (fun m => m.day == d)) = true →
      od.filter (fun m => m.day == d) ∈ days.foldl
        (fun cd d =>
          let data_subset := od.filter (fun m => m.day == d)
          if 0 < data_subset.length then
            if valid_data_to_calculate_ext_cof data_subset then
              cd ++ [data_subset]
            else cd
          else cd)
        acc := by
  intro days
  induction days with
  | nil => intro acc d h; exact absurd h (List.not_mem_nil d)
  | cons dh t ih =>
    intro acc d hmem h1 h2
    rw [List.foldl_cons]
    rcases List.mem_cons.mp hmem with heq | htail
    · subst heq
      apply mem_accept_fold_mono
      simp only [h1, if_true, h2]
      exact List.mem_append_right _ (List.mem_singleton.mpr rfl)
    · exact ih _ d htail h1 h2

theorem pool_state_sound (objects : List CatalogObject)
    (standard_obj_index : List ℕ)
    (instrumental_magnitudes : List (List (List InstMeasurement))) :
    ∀ s ∈ (extinctionPoolState objects standard_obj_index
        instrumental_magnitudes).calc_data,
      s ≠ [] ∧ valid_data_to_calculate_ext_cof s = true := by
  unfold extinctionPoolState
  suffices h : ∀ (idx : List ℕ) (st : ExtState),
      (∀ s ∈ st.calc_data, s ≠ [] ∧ valid_data_to_calculate_ext_cof s = true) →
      ∀ s ∈ (idx.foldl (processObject objects instrumental_magnitudes)
          st).calc_data,
        s ≠ [] ∧ valid_data_to_calculate_ext_cof s = true by
    exact h standard_obj_index ⟨[], [], []⟩ (by intro s hs; simp at hs)
  intro idx
  induction idx with
  | nil => intro st hst s hs; exact hst s hs
  | cons i t ih =>
    intro st hst s hs
    rw [List.foldl_cons] at hs
    refine ih _ ?_ s hs
    intro s' hs'
    unfold processObject at hs'
    simp only at hs'
    rcases List.mem_append.mp hs' with h' | h'
    · exact hst s' h'
    · unfold acceptSubsets at h'
      rcases mem_accept_fold _ _ _ _ h' with h'' | h''
      · exact absurd h'' (List.not_mem_nil s')
      · exact h''

/-- C5: an (object, day) sample set enters the pool from which the pooled
(day, filter) fit draws if and only if its per-object OLS slope is strictly
positive: every set in the accepted pool is nonempty with positive slope, and
a nonempty day subset of an object's data is accepted exactly when its fitted
slope is positive (a non-positive slope discards the whole set). -/
theorem extinction_slope_gate :
    (∀ (objects : List CatalogObject) (standard_obj_index : List ℕ)
        (instrumental_magnitudes : List (List (List InstMeasurement)))
        (s : List ExtCoefData),
      s ∈ (extinctionPoolState objects standard_obj_index
          instrumental_magnitudes).calc_data →
      s ≠ [] ∧ 0 < (calculate_extinction_coefficient s).1) ∧
    (∀ (days : List ℤ) (od : List ExtCoefData) (d : ℤ),
      d ∈ days →
      od.filter (fun m => m.day == d) ≠ [] →
      (od.filter (fun m => m.day == d) ∈ acceptSubsets days od ↔
        0 < (calculate_extinction_coefficient
          (od.filter (fun m => m.day == d))).1)) := by
  constructor
  · intro objects standard_obj_index instrumental_magnitudes s hs
    obtain ⟨hne, hvalid⟩ :=
      pool_state_sound objects standard_obj_index instrumental_magnitudes s hs
    refine ⟨hne, ?_⟩
    unfold valid_data_to_calculate_ext_cof at hvalid
    exact of_decide_eq_true hvalid
  · intro days od d hd hne
    constructor
    · intro hmem
      unfold acceptSubsets at hmem
      rcases mem_accept_fold _ _ _ _ hmem with h | h
      · exact absurd h (List.not_mem_nil _)
      · unfold valid_data_to_calculate_ext_cof at h
        exact of_decide_eq_true h.2
    · intro hslope
      unfold acceptSubsets
      exact mem_accept_fold_complete od days [] d hd
        (List.length_pos.mpr hne)
        (by unfold valid_data_to_calculate_ext_cof; exact decide_eq_true hslope)

/-- Witness for `extinction_slope_gate`: the accepted pool of a concrete run
contains the day-5 sample set of object `e1`, whose fitted slope `3/2` is
positive. -/
theorem extinction_slope_gate_witness :
    ([⟨5, ⟨5, 5, []⟩, 11, 10, 1, Filt.B, "e1"⟩,
      ⟨5, ⟨5, 6, []⟩, 25/2, 10, 2, Filt.B, "e1"⟩] :
        List ExtCoefData) ≠ [] ∧
    0 < (calculate_extinction_coefficient
      [⟨5, ⟨5, 5, []⟩, 11, 10, 1, Filt.B, "e1"⟩,
       ⟨5, ⟨5, 6, []⟩, 25/2, 10, 2, Filt.B, "e1"⟩]).1 :=
  extinction_slope_gate.1 [⟨"e1", true, some 10, some 9, none⟩] [0]
    [[[⟨⟨5, 5, []⟩, some 11, 1, Filt.B⟩,
       ⟨⟨5, 6, []⟩, some (25/2), 2, Filt.B⟩]]]
    _ (by with_unfolding_all decide)

/-- The qualification rule of §4.5/§4.6 as the specification words it: the
object at position `i` of the standard list qualifies for day `d` when its
B-filter and V-filter corrected magnitudes for that day have equal, nonzero
counts. -/
def qualifiesForTransformFit (ext_corr_mags : List (List CorrMeasurement))
    (d : ℤ) (i : ℕ) : Bool :=
  decide ((mags_of_B_filter (ext_corr_mags.getD i []) d).length =
      (mags_of_V_filter (ext_corr_mags.getD i []) d).length ∧
    (mags_of_B_filter (ext_corr_mags.getD i []) d).length ≠ 0)

/-- The number of standard objects qualifying for day `d`. -/
def numQualifyingStandards (standard_obj_index : List ℕ)
    (ext_corr_mags : List (List CorrMeasurement)) (d : ℤ) : ℕ :=
  ((List.range standard_obj_index.length).filter
    (fun i => qualifiesForTransformFit ext_corr_mags d i)).length

theorem day_accumulators_len (objects : List CatalogObject)
    (standard_obj_index : List ℕ)
    (ext_corr_mags : List (List CorrMeasurement)) (d : ℤ) :
    (day_accumulators objects standard_obj_index ext_corr_mags d).2.1.length =
      numQualifyingStandards standard_obj_index ext_corr_mags d := by
  unfold day_accumulators numQualifyingStandards
  suffices h : ∀ (l : List ℕ) (acc : List ℚ × List ℚ × List ℚ × List ℚ),
      ((l.foldl
        (fun acc i =>
          let object_index := standard_obj_index.getD i 0
          let obj_mags := ext_corr_mags.getD i []
          let mags_of_B_filter :=
            obj_mags.filter (fun m => m.day == d && m.filt == Filt.B)
          let mags_of_V_filter :=
            obj_mags.filter (fun m => m.day == d && m.filt == Filt.V)
          if 0 < mags_of_B_filter.length ∧ 0 < mags_of_V_filter.length ∧
              mags_of_B_filter.length = mags_of_V_filter.length then
            let B_mean := np_mean (mags_of_B_filter.map (fun m => m.ce_mag))
            let V_mean := np_mean (mags_of_V_filter.map (fun m => m.ce_mag))
            let B_std := ((objects.getD object_index default).b_mag).getD 0
            let V_std := ((objects.getD object_index default).v_mag).getD 0
            (acc.1 ++ [B_mean - V_mean], acc.2.1 ++ [V_mean],
              acc.2.2.1 ++ [B_std - V_std], acc.2.2.2 ++ [V_std])
          else acc)
        acc).2.1).length =
      acc.2.1.length +
        (l.filter (fun i => qualifiesForTransformFit ext_corr_mags d i)).length by
    simpa using h (List.range standard_obj_index.length) ([], [], [], [])
  intro l
  induction l with
  | nil => intro acc; simp
  | cons i t ih =>
    intro acc
    rw [List.foldl_cons, List.filter_cons]
    by_cases hq : qualifiesForTransformFit ext_corr_mags d i = true
    · have hprop := of_decide_eq_true (by
        unfold qualifiesForTransformFit at hq; exact hq)
      have hgate : 0 < ((ext_corr_mags.getD i []).filter
            (fun m => m.day == d && m.filt == Filt.B)).length ∧
          0 < ((ext_corr_mags.getD i []).filter
            (fun m => m.day == d && m.filt == Filt.V)).length ∧
          ((ext_corr_mags.getD i []).filter
            (fun m => m.day == d && m.filt == Filt.B)).length =
          ((ext_corr_mags.getD i []).filter
            (fun m => m.day == d && m.filt == Filt.V)).length := by
        unfold mags_of_B_filter mags_of_V_filter at hprop
        omega
      rw [ih]
      simp only [if_pos hgate, hq, if_true]
      simp [Nat.add_comm, Nat.add_assoc, Nat.add_left_comm]
    · have hprop : ¬ ((mags_of_B_filter (ext_corr_mags.getD i []) d).length =
            (mags_of_V_filter (ext_corr_mags.getD i []) d).length ∧
          (mags_of_B_filter (ext_corr_mags.getD i []) d).length ≠ 0) := by
        intro hc
        exact hq (by unfold qualifiesForTransformFit; exact decide_eq_true hc)
      have hgate : ¬ (0 < ((ext_corr_mags.getD i []).filter
            (fun m => m.day == d && m.filt == Filt.B)).length ∧
          0 < ((ext_corr_mags.getD i []).filter
            (fun m => m.day == d && m.filt == Filt.V)).length ∧
          ((ext_corr_mags.getD i []).filter
            (fun m => m.day == d && m.filt == Filt.B)).length =
          ((ext_corr_mags.getD i []).filter
            (fun m => m.day == d && m.filt == Filt.V)).length) := by
        unfold mags_of_B_filter mags_of_V_filter at hprop
        omega
      rw [ih]
      simp only [if_neg hgate, hq]
      simp

theorem trans_fold_mem (objects : List CatalogObject)
    (standard_obj_index : List ℕ)
    (ext_corr_mags : List (List CorrMeasurement)) (d : ℤ) :
    ∀ (days : List ℤ) (acc : List TransCoefRecord),
      (∃ tc ∈ days.foldl
        (fun trans_coef d =>
          let a := day_accumulators objects standard_obj_index ext_corr_mags d
          if 1 < a.2.1.length then
            let c := calculate_transforming_coefficients a.1 a.2.1 a.2.2.1
              a.2.2.2
            trans_coef ++ [⟨d, c.1, c.2.1, c.2.2.1, c.2.2.2⟩]
          else trans_coef)
        acc, tc.day = d) ↔
      (∃ tc ∈ acc, tc.day = d) ∨
        (d ∈ days ∧
          2 ≤ numQualifyingStandards standard_obj_index ext_corr_mags d) := by
  intro days
  induction days with
  | nil => intro acc; simp
  | cons dh t ih =>
    intro acc
    rw [List.foldl_cons]
    rw [ih]
    by_cases hlen : 1 <
        (day_accumulators objects standard_obj_index ext_corr_mags dh).2.1.length
    · have hq : 2 ≤ numQualifyingStandards standard_obj_index ext_corr_mags dh := by
        rw [day_accumulators_len] at hlen
        omega
      simp only [if_pos hlen]
      constructor
      · rintro (h | h)
        · obtain ⟨tc, htc, hday⟩ := h
          rcases List.mem_append.mp htc with h' | h'
          · exact Or.inl ⟨tc, h', hday⟩
          · have htcd : tc.day = dh := by
              rw [List.mem_singleton.mp h']
            right
            have hdd : dh = d := by rw [← htcd, hday]
            subst hdd
            exact ⟨List.mem_cons_self _ _, hq⟩
        · exact Or.inr ⟨List.mem_cons_of_mem _ h.1, h.2⟩
      · rintro (h | h)
        · exact Or.inl ⟨h.choose, List.mem_append_left _ h.choose_spec.1,
            h.choose_spec.2⟩
        · rcases List.mem_cons.mp h.1 with heq | htail
          · subst heq
            exact Or.inl ⟨⟨d, _, _, _, _⟩,
              List.mem_append_right _ (List.mem_singleton.mpr rfl), rfl⟩
          · exact Or.inr ⟨htail, h.2⟩
    · have hq : ¬ 2 ≤ numQualifyingStandards standard_obj_index ext_corr_mags dh := by
        rw [day_accumulators_len] at hlen
        omega
      simp only [if_neg hlen]
      constructor
      · rintro (h | h)
        · exact Or.inl h
        · exact Or.inr ⟨List.mem_cons_of_mem _ h.1, h.2⟩
      · rintro (h | h)
        · exact Or.inl h
        · rcases List.mem_cons.mp h.1 with heq | htail
          · subst heq
            exact absurd h.2 hq
          · exact Or.inr ⟨htail, h.2⟩

/-- C7: a TransformationCoefficientRecord is produced for a day if and only if
the day occurs in the data and at least 2 standard objects qualify for it; in
particular a day with exactly one qualifying standard object yields no
record. -/
theorem trans_coef_iff_two_qualifying (objects : List CatalogObject)
    (standard_obj_index : List ℕ)
    (ext_corr_mags : List (List CorrMeasurement)) (days : List ℤ)
    (filters : List Filt) (d : ℤ) :
    (∃ tc ∈ get_transforming_coefficients objects standard_obj_index
        ext_corr_mags days filters, tc.day = d) ↔
      (d ∈ days ∧
        2 ≤ numQualifyingStandards standard_obj_index ext_corr_mags d) := by
  unfold get_transforming_coefficients
  rw [trans_fold_mem]
  simp

/-- C8: a standard object enters a day's transformation fit, and an
(object, day) produces calibrated output, exactly when its blue and visual
corrected-magnitude counts for the day are equal and nonzero: the day's
accumulators receive one entry per qualifying object, a calibration emission
for an object position and transformation record exists iff the counts are
equal and nonzero, and a concrete object with 3 blue but 2 visual corrected
magnitudes for day 5 produces no calibrated output at all (the run returns an
empty emission list rather than failing). -/
theorem pairing_gate :
    (∀ (objects : List CatalogObject) (standard_obj_index : List ℕ)
        (ext_corr_mags : List (List CorrMeasurement)) (d : ℤ),
      (day_accumulators objects standard_obj_index ext_corr_mags
          d).2.1.length =
        numQualifyingStandards standard_obj_index ext_corr_mags d) ∧
    (∀ (objects : List CatalogObject) (obj_indexes : List ℕ)
        (ext_corr_mags : List (List CorrMeasurement)) (i : ℕ)
        (tc : TransCoefRecord),
      (cal_for_object_day objects obj_indexes ext_corr_mags i tc).isSome =
          true ↔
        ((mags_of_B_filter (ext_corr_mags.getD i []) tc.day).length =
            (mags_of_V_filter (ext_corr_mags.getD i []) tc.day).length ∧
          (mags_of_B_filter (ext_corr_mags.getD i []) tc.day).length ≠ 0)) ∧
    calibrated_magnitudes [⟨"s1", true, some 10, some 9, none⟩] [0]
      [[⟨⟨5, 5, []⟩, 5, 9, 10, Filt.B⟩, ⟨⟨5, 5, [1]⟩, 5, 8, 9, Filt.B⟩,
        ⟨⟨5, 5, [2]⟩, 5, 7, 8, Filt.B⟩, ⟨⟨5, 5, [3]⟩, 5, 6, 7, Filt.V⟩,
        ⟨⟨5, 5, [4]⟩, 5, 5, 6, Filt.V⟩]]
      [⟨5, 0, 1, 1, 0⟩] = [] := by
  refine ⟨day_accumulators_len, ?_, by with_unfolding_all decide⟩
  intro objects obj_indexes ext_corr_mags i tc
  simp only [cal_for_object_day]
  split
  next hgate =>
    refine iff_of_true rfl ?_
    unfold mags_of_B_filter mags_of_V_filter
    omega
  next hgate =>
    refine iff_of_false (by simp) ?_
    unfold mags_of_B_filter mags_of_V_filter
    omega

theorem getD_of_lt {α : Type} (l : List α) (j : ℕ) (d : α) (h : j < l.length) :
    l.getD j d = getElem l j h := by
  rw [List.getD_eq_getElem?_getD, List.getElem?_eq_getElem h]
  rfl

/-- The calibrated blue-filter output row of §4.6, as the specification words
it, for one paired sample `(b, v)`:
`calibrated_color = c3·observed_color + c4`,
`calibrated_visual = observed_visual + c1·calibrated_color + c2`,
`calibrated_blue = calibrated_color + calibrated_visual`. -/
def calBlueRowSpec (tc : TransCoefRecord) (b v : CorrMeasurement) : CalRow :=
  let calibrated_color := tc.c3 * (b.ce_mag - v.ce_mag) + tc.c4
  let calibrated_visual := v.ce_mag + tc.c1 * calibrated_color + tc.c2
  ⟨b.jd_time, calibrated_color + calibrated_visual, b.ce_mag, b.inst_mag,
    b.filt⟩

/-- The calibrated visual-filter output row of §4.6, as the specification
words it, for one paired sample `(b, v)`. -/
def calVisualRowSpec (tc : TransCoefRecord) (b v : CorrMeasurement) : CalRow :=
  let calibrated_color := tc.c3 * (b.ce_mag - v.ce_mag) + tc.c4
  let calibrated_visual := v.ce_mag + tc.c1 * calibrated_color + tc.c2
  ⟨v.jd_time, calibrated_visual, v.ce_mag, v.inst_mag, v.filt⟩

theorem cal_rows_structure (tc : TransCoefRecord) (B V : List CorrMeasurement)
    (hBV : B.length = V.length) :
    ((B.zip V).map (fun p =>
        let B_V_cal := tc.c3 * (p.1.ce_mag - p.2.ce_mag) + tc.c4
        let V_cal := p.2.ce_mag + tc.c1 * B_V_cal + tc.c2
        CalRow.mk p.1.jd_time (B_V_cal + V_cal) p.1.ce_mag p.1.inst_mag
          p.1.filt) ++
      (B.zip V).map (fun p =>
        let B_V_cal := tc.c3 * (p.1.ce_mag - p.2.ce_mag) + tc.c4
        let V_cal := p.2.ce_mag + tc.c1 * B_V_cal + tc.c2
        CalRow.mk p.2.jd_time V_cal p.2.ce_mag p.2.inst_mag
          p.2.filt)).length = B.length + V.length ∧
    ∀ j, j < B.length →
      ((B.zip V).map (fun p =>
          let B_V_cal := tc.c3 * (p.1.ce_mag - p.2.ce_mag) + tc.c4
          let V_cal := p.2.ce_mag + tc.c1 * B_V_cal + tc.c2
          CalRow.mk p.1.jd_time (B_V_cal + V_cal) p.1.ce_mag p.1.inst_mag
            p.1.filt) ++
        (B.zip V).map (fun p =>
          let B_V_cal := tc.c3 * (p.1.ce_mag - p.2.ce_mag) + tc.c4
          let V_cal := p.2.ce_mag + tc.c1 * B_V_cal + tc.c2
          CalRow.mk p.2.jd_time V_cal p.2.ce_mag p.2.inst_mag
            p.2.filt)).getD j default =
        calBlueRowSpec tc (B.getD j default) (V.getD j default) ∧
      ((B.zip V).map (fun p =>
          let B_V_cal := tc.c3 * (p.1.ce_mag - p.2.ce_mag) + tc.c4
          let V_cal := p.2.ce_mag + tc.c1 * B_V_cal + tc.c2
          CalRow.mk p.1.jd_time (B_V_cal + V_cal) p.1.ce_mag p.1.inst_mag
            p.1.filt) ++
        (B.zip V).map (fun p =>
          let B_V_cal := tc.c3 * (p.1.ce_mag - p.2.ce_mag) + tc.c4
          let V_cal := p.2.ce_mag + tc.c1 * B_V_cal + tc.c2
          CalRow.mk p.2.jd_time V_cal p.2.ce_mag p.2.inst_mag
            p.2.filt)).getD (B.length + j) default =
        calVisualRowSpec tc (B.getD j default) (V.getD j default) := by
  have hzlen : (B.zip V).length = B.length := by
    rw [List.length_zip, hBV, min_self]
  constructor
  · rw [List.length_append, List.length_map, List.length_map, hzlen, hBV]
  · intro j hj
    have hjV : j < V.length := by rw [← hBV]; exact hj
    have hjb : j < ((B.zip V).map (fun p =>
        let B_V_cal := tc.c3 * (p.1.ce_mag - p.2.ce_mag) + tc.c4
        let V_cal := p.2.ce_mag + tc.c1 * B_V_cal + tc.c2
        CalRow.mk p.1.jd_time (B_V_cal + V_cal) p.1.ce_mag p.1.inst_mag
          p.1.filt)).length := by
      rw [List.length_map, hzlen]; exact hj
    have hjz : j < (B.zip V).length := by rw [hzlen]; exact hj
    constructor
    · have hjr : j < (((B.zip V).map (fun p =>
            let B_V_cal := tc.c3 * (p.1.ce_mag - p.2.ce_mag) + tc.c4
            let V_cal := p.2.ce_mag + tc.c1 * B_V_cal + tc.c2
            CalRow.mk p.1.jd_time (B_V_cal + V_cal) p.1.ce_mag p.1.inst_mag
              p.1.filt)) ++
          (B.zip V).map (fun p =>
            let B_V_cal := tc.c3 * (p.1.ce_mag - p.2.ce_mag) + tc.c4
            let V_cal := p.2.ce_mag + tc.c1 * B_V_cal + tc.c2
            CalRow.mk p.2.jd_time V_cal p.2.ce_mag p.2.inst_mag
              p.2.filt)).length := by
        rw [List.length_append]
        omega
      rw [getD_of_lt _ _ _ hjr,
        List.getElem_append_left hjb, List.getElem_map, List.getElem_zip,
        getD_of_lt _ _ _ hj, getD_of_lt _ _ _ hjV]
      rfl
    · have hble : (((B.zip V).map (fun p =>
          let B_V_cal := tc.c3 * (p.1.ce_mag - p.2.ce_mag) + tc.c4
          let V_cal := p.2.ce_mag + tc.c1 * B_V_cal + tc.c2
          CalRow.mk p.1.jd_time (B_V_cal + V_cal) p.1.ce_mag p.1.inst_mag
            p.1.filt))).length = B.length := by
        rw [List.length_map, hzlen]
      have hjr : B.length + j < (((B.zip V).map (fun p =>
            let B_V_cal := tc.c3 * (p.1.ce_mag - p.2.ce_mag) + tc.c4
            let V_cal := p.2.ce_mag + tc.c1 * B_V_cal + tc.c2
            CalRow.mk p.1.jd_time (B_V_cal + V_cal) p.1.ce_mag p.1.inst_mag
              p.1.filt)) ++
          (B.zip V).map (fun p =>
            let B_V_cal := tc.c3 * (p.1.ce_mag - p.2.ce_mag) + tc.c4
            let V_cal := p.2.ce_mag + tc.c1 * B_V_cal + tc.c2
            CalRow.mk p.2.jd_time V_cal p.2.ce_mag p.2.inst_mag
              p.2.filt)).length := by
        rw [List.length_append, List.length_map, List.length_map, hzlen]
        omega
      rw [getD_of_lt _ _ _ hjr,
        List.getElem_append_right (by rw [hble]; omega)]
      simp only [hble, Nat.add_sub_cancel_left]
      rw [List.getElem_map, List.getElem_zip,
        getD_of_lt _ _ _ hj, getD_of_lt _ _ _ hjV]
      rfl

/-- C9: for every qualifying paired (object, day) sample the emitted rows are
exactly one per original blue sample followed by one per original visual
sample, and the `j`-th blue and visual rows carry
`calibrated_color = c3·observed_color + c4`,
`calibrated_visual = observed_visual + c1·calibrated_color + c2` and
`calibrated_blue = calibrated_color + calibrated_visual` computed over the
`j`-th paired samples. -/
theorem calibrated_formulas (objects : List CatalogObject)
    (obj_indexes : List ℕ) (ext_corr_mags : List (List CorrMeasurement))
    (i : ℕ) (tc : TransCoefRecord) (e : CalEmission)
    (h : cal_for_object_day objects obj_indexes ext_corr_mags i tc = some e) :
    e.rows.length =
      (mags_of_B_filter (ext_corr_mags.getD i []) tc.day).length +
        (mags_of_V_filter (ext_corr_mags.getD i []) tc.day).length ∧
    ∀ j, j < (mags_of_B_filter (ext_corr_mags.getD i []) tc.day).length →
      e.rows.getD j default =
        calBlueRowSpec tc
          ((mags_of_B_filter (ext_corr_mags.getD i []) tc.day).getD j default)
          ((mags_of_V_filter (ext_corr_mags.getD i []) tc.day).getD j
            default) ∧
      e.rows.getD
          ((mags_of_B_filter (ext_corr_mags.getD i []) tc.day).length + j)
          default =
        calVisualRowSpec tc
          ((mags_of_B_filter (ext_corr_mags.getD i []) tc.day).getD j default)
          ((mags_of_V_filter (ext_corr_mags.getD i []) tc.day).getD j
            default) := by
  unfold mags_of_B_filter mags_of_V_filter
  simp only [cal_for_object_day] at h
  split at h
  · rw [Option.some_inj] at h
    subst h
    dsimp only
    next hgate => exact cal_rows_structure tc _ _ hgate.2.2
  · simp at h

/-- Witness for `calibrated_formulas`: a concrete standard object with one
paired blue/visual corrected sample on day 5 and transformation coefficients
`(0, 1, 1, 0)` yields exactly one blue row and one visual row, carrying the
claimed formulas. -/
theorem calibrated_formulas_witness :
    (⟨"s1", 5, [⟨⟨5, 5, []⟩, 10, 9, 10, Filt.B⟩,
        ⟨⟨5, 5, [1]⟩, 9, 8, 9, Filt.V⟩]⟩ : CalEmission).rows.length =
      (mags_of_B_filter
        ([[⟨⟨5, 5, []⟩, 5, 9, 10, Filt.B⟩,
           ⟨⟨5, 5, [1]⟩, 5, 8, 9, Filt.V⟩]].getD 0 []) 5).length +
      (mags_of_V_filter
        ([[⟨⟨5, 5, []⟩, 5, 9, 10, Filt.B⟩,
           ⟨⟨5, 5, [1]⟩, 5, 8, 9, Filt.V⟩]].getD 0 []) 5).length ∧
    ((⟨"s1", 5, [⟨⟨5, 5, []⟩, 10, 9, 10, Filt.B⟩,
        ⟨⟨5, 5, [1]⟩, 9, 8, 9, Filt.V⟩]⟩ : CalEmission).rows.getD 0 default =
      calBlueRowSpec ⟨5, 0, 1, 1, 0⟩
        ((mags_of_B_filter
          ([[⟨⟨5, 5, []⟩, 5, 9, 10, Filt.B⟩,
             ⟨⟨5, 5, [1]⟩, 5, 8, 9, Filt.V⟩]].getD 0 []) 5).getD 0 default)
        ((mags_of_V_filter
          ([[⟨⟨5, 5, []⟩, 5, 9, 10, Filt.B⟩,
             ⟨⟨5, 5, [1]⟩, 5, 8, 9, Filt.V⟩]].getD 0 []) 5).getD 0 default) ∧
     (⟨"s1", 5, [⟨⟨5, 5, []⟩, 10, 9, 10, Filt.B⟩,
        ⟨⟨5, 5, [1]⟩, 9, 8, 9, Filt.V⟩]⟩ : CalEmission).rows.getD
          ((mags_of_B_filter
            ([[⟨⟨5, 5, []⟩, 5, 9, 10, Filt.B⟩,
               ⟨⟨5, 5, [1]⟩, 5, 8, 9, Filt.V⟩]].getD 0 []) 5).length + 0)
          default =
      calVisualRowSpec ⟨5, 0, 1, 1, 0⟩
        ((mags_of_B_filter
          ([[⟨⟨5, 5, []⟩, 5, 9, 10, Filt.B⟩,
             ⟨⟨5, 5, [1]⟩, 5, 8, 9, Filt.V⟩]].getD 0 []) 5).getD 0 default)
        ((mags_of_V_filter
          ([[⟨⟨5, 5, []⟩, 5, 9, 10, Filt.B⟩,
             ⟨⟨5, 5, [1]⟩, 5, 8, 9, Filt.V⟩]].getD 0 []) 5).getD 0 default)) := by
  have h := calibrated_formulas [⟨"s1", true, some 10, some 9, none⟩] [0]
    [[⟨⟨5, 5, []⟩, 5, 9, 10, Filt.B⟩, ⟨⟨5, 5, [1]⟩, 5, 8, 9, Filt.V⟩]] 0
    ⟨5, 0, 1, 1, 0⟩
    ⟨"s1", 5, [⟨⟨5, 5, []⟩, 10, 9, 10, Filt.B⟩,
      ⟨⟨5, 5, [1]⟩, 9, 8, 9, Filt.V⟩]⟩
    (by with_unfolding_all decide)
  exact ⟨h.1, h.2 0 (by with_unfolding_all decide)⟩

theorem cal_fold_no_write (name : String) :
    ∀ (l : List CalEmission) (files0 : String → Option (List CalRow)),
      l.filter (fun e => e.objName == name) = [] →
      (l.foldl (fun files e => save_magnitudes_w files e.objName e.rows)
        files0) name = files0 name := by
  intro l
  induction l with
  | nil => intro f0 _; rfl
  | cons e t ih =>
    intro f0 h
    rw [List.filter_cons] at h
    by_cases he : (e.objName == name) = true
    · rw [if_pos he] at h
      exact absurd h (List.cons_ne_nil _ _)
    · rw [if_neg he] at h
      rw [List.foldl_cons, ih _ h]
      unfold save_magnitudes_w
      rw [if_neg (fun hc => he (beq_iff_eq.mpr hc.symm))]

theorem cal_fold_last_write (name : String) :
    ∀ (l : List CalEmission) (files0 : String → Option (List CalRow)),
      l.filter (fun e => e.objName == name) ≠ [] →
      (l.foldl (fun files e => save_magnitudes_w files e.objName e.rows)
        files0) name =
        some ((l.filter (fun e => e.objName == name)).getLastD default).rows := by
  intro l
  induction l with
  | nil => intro f0 h; exact absurd rfl h
  | cons e t ih =>
    intro f0 h
    rw [List.foldl_cons]
    rw [List.filter_cons] at h ⊢
    by_cases he : (e.objName == name) = true
    · rw [if_pos he] at h ⊢
      by_cases ht : t.filter (fun e => e.objName == name) = []
      · rw [cal_fold_no_write name t _ ht, ht]
        unfold save_magnitudes_w
        rw [if_pos (beq_iff_eq.mp he).symm]
        rfl
      · rw [ih _ ht, List.getLastD_cons]
        rw [List.getLastD_eq_getLast?, List.getLastD_eq_getLast?,
          List.getLast?_eq_getLast _ ht]
        rfl
    · rw [if_neg he] at h ⊢
      exact ih _ h

/-- C10: the calibrated rows of each (object, day) are written to the object's
calibrated output file in overwrite mode, so after the run the persisted file
holds exactly the rows of the last emission for that object — when an object
qualifies on several days having a transformation record, only the last day's
measurements remain. -/
theorem cal_file_overwritten (objects : List CatalogObject)
    (obj_indexes : List ℕ) (ext_corr_mags : List (List CorrMeasurement))
    (trans_coef : List TransCoefRecord)
    (files0 : String → Option (List CalRow)) (name : String)
    (h : (calibrated_magnitudes objects obj_indexes ext_corr_mags
        trans_coef).filter (fun e => e.objName == name) ≠ []) :
    calibrated_files objects obj_indexes ext_corr_mags trans_coef files0
        name =
      some (((calibrated_magnitudes objects obj_indexes ext_corr_mags
          trans_coef).filter (fun e => e.objName == name)).getLastD
        default).rows := by
  unfold calibrated_files
  exact cal_fold_last_write name _ files0 h

/-- Witness for `cal_file_overwritten`: an object qualifying on both day 5 and
day 6 produces two emissions, and the persisted file ends up holding the last
(day 6) emission's rows only. -/
theorem cal_file_overwritten_witness :
    calibrated_files [⟨"s1", true, some 10, some 9, none⟩] [0]
        [[⟨⟨5, 5, []⟩, 5, 9, 10, Filt.B⟩, ⟨⟨5, 5, [1]⟩, 5, 8, 9, Filt.V⟩,
          ⟨⟨6, 5, []⟩, 6, 7, 8, Filt.B⟩, ⟨⟨6, 5, [1]⟩, 6, 6, 7, Filt.V⟩]]
        [⟨5, 0, 1, 1, 0⟩, ⟨6, 0, 1, 1, 0⟩] (fun _ => none) "s1" =
      some (((calibrated_magnitudes [⟨"s1", true, some 10, some 9, none⟩] [0]
          [[⟨⟨5, 5, []⟩, 5, 9, 10, Filt.B⟩, ⟨⟨5, 5, [1]⟩, 5, 8, 9, Filt.V⟩,
            ⟨⟨6, 5, []⟩, 6, 7, 8, Filt.B⟩, ⟨⟨6, 5, [1]⟩, 6, 6, 7, Filt.V⟩]]
          [⟨5, 0, 1, 1, 0⟩, ⟨6, 0, 1, 1, 0⟩]).filter
        (fun e => e.objName == "s1")).getLastD default).rows ∧
    ((calibrated_magnitudes [⟨"s1", true, some 10, some 9, none⟩] [0]
        [[⟨⟨5, 5, []⟩, 5, 9, 10, Filt.B⟩, ⟨⟨5, 5, [1]⟩, 5, 8, 9, Filt.V⟩,
          ⟨⟨6, 5, []⟩, 6, 7, 8, Filt.B⟩, ⟨⟨6, 5, [1]⟩, 6, 6, 7, Filt.V⟩]]
        [⟨5, 0, 1, 1, 0⟩, ⟨6, 0, 1, 1, 0⟩]).filter
      (fun e => e.objName == "s1")).length = 2 ∧
    (((calibrated_magnitudes [⟨"s1", true, some 10, some 9, none⟩] [0]
        [[⟨⟨5, 5, []⟩, 5, 9, 10, Filt.B⟩, ⟨⟨5, 5, [1]⟩, 5, 8, 9, Filt.V⟩,
          ⟨⟨6, 5, []⟩, 6, 7, 8, Filt.B⟩, ⟨⟨6, 5, [1]⟩, 6, 6, 7, Filt.V⟩]]
        [⟨5, 0, 1, 1, 0⟩, ⟨6, 0, 1, 1, 0⟩]).filter
      (fun e => e.objName == "s1")).getLastD default).day = 6 :=
  ⟨cal_file_overwritten [⟨"s1", true, some 10, some 9, none⟩] [0]
      [[⟨⟨5, 5, []⟩, 5, 9, 10, Filt.B⟩, ⟨⟨5, 5, [1]⟩, 5, 8, 9, Filt.V⟩,
        ⟨⟨6, 5, []⟩, 6, 7, 8, Filt.B⟩, ⟨⟨6, 5, [1]⟩, 6, 6, 7, Filt.V⟩]]
      [⟨5, 0, 1, 1, 0⟩, ⟨6, 0, 1, 1, 0⟩] (fun _ => none) "s1"
      (by with_unfolding_all decide),
    by with_unfolding_all decide, by with_unfolding_all decide⟩

theorem length_filter_partition {α : Type} (p : α → Bool) (l : List α) :
    (l.filter p).length + (l.filter (fun a => !p a)).length = l.length := by
  induction l with
  | nil => rfl
  | cons a t ih =>
    cases h : p a <;> simp [List.filter_cons, h] <;> omega

theorem getD_map_of_lt {α β : Type} (f : α → β) (l : List α) (i : ℕ)
    (d : β) (d0 : α) (h : i < l.length) :
    (l.map f).getD i d = f (l.getD i d0) := by
  rw [getD_of_lt _ _ _ h,
    getD_of_lt (l.map f) i d (by rw [List.length_map]; exact h),
    List.getElem_map]

theorem getD_mem_of_lt {α : Type} (l : List α) (i : ℕ) (d : α)
    (h : i < l.length) : l.getD i d ∈ l := by
  rw [getD_of_lt _ _ _ h]
  exact List.getElem_mem h

theorem calibrated_magnitudes_trace (objects : List CatalogObject)
    (obj_indexes : List ℕ) (ext_corr_mags : List (List CorrMeasurement))
    (trans_coef : List TransCoefRecord) (corrOf : ℕ → List CorrMeasurement)
    (H : ∀ i ∈ obj_indexes, obj_indexes.getD i 0 < objects.length ∧
      ext_corr_mags.getD i [] = corrOf (obj_indexes.getD i 0)) :
    ∀ e ∈ calibrated_magnitudes objects obj_indexes ext_corr_mags trans_coef,
      ∃ j, j < objects.length ∧ e.objName = (objects.getD j default).name ∧
        ∀ r ∈ e.rows, ∃ cm ∈ corrOf j,
          cm.day = e.day ∧ r.jd_time = cm.jd_time ∧ r.ce_mag = cm.ce_mag ∧
          r.inst_mag = cm.inst_mag ∧ r.filt = cm.filt := by
  intro e he
  unfold calibrated_magnitudes at he
  obtain ⟨i, hi, he2⟩ := List.mem_flatMap.mp he
  obtain ⟨tc, _, hsome⟩ := List.mem_filterMap.mp he2
  obtain ⟨hjlt, hecm⟩ := H i hi
  simp only [cal_for_object_day] at hsome
  split at hsome
  case isFalse => simp at hsome
  case isTrue hgate =>
    rw [Option.some_inj] at hsome
    subst hsome
    refine ⟨obj_indexes.getD i 0, hjlt, rfl, ?_⟩
    intro r hr
    dsimp only at hr
    rcases List.mem_append.mp hr with hb | hv
    · obtain ⟨p, hp, hform⟩ := List.mem_map.mp hb
      have hmem := (List.of_mem_zip hp).1
      rw [hecm] at hmem
      obtain ⟨hin, hpred⟩ := List.mem_filter.mp hmem
      have hday : p.1.day = tc.day :=
        beq_iff_eq.mp ((Bool.and_eq_true _ _).mp hpred).1
      subst hform
      exact ⟨p.1, hin, hday, rfl, rfl, rfl, rfl⟩
    · obtain ⟨p, hp, hform⟩ := List.mem_map.mp hv
      have hmem := (List.of_mem_zip hp).2
      rw [hecm] at hmem
      obtain ⟨hin, hpred⟩ := List.mem_filter.mp hmem
      have hday : p.2.day = tc.day :=
        beq_iff_eq.mp ((Bool.and_eq_true _ _).mp hpred).1
      subst hform
      exact ⟨p.2, hin, hday, rfl, rfl, rfl, rfl⟩

/-- C6: every emission of the pipeline is attributed to a catalog object whose
own extinction-corrected magnitudes supplied every row of the emission: the
double indexing `ext_corr_mags[i]` / `objects[obj_indexes[i]]` at
magnitude.py:730-733 is mutually consistent, because `obj_indexes` holds each
object position exactly once and `ext_corr_mags` is built in `obj_indexes`
order. -/
theorem calibrated_attribution (objects : List CatalogObject)
    (instrumental_magnitudes : List (List (List InstMeasurement)))
    (e : CalEmission)
    (he : e ∈ process_instrumental_magnitudes objects
      instrumental_magnitudes) :
    ∃ j, j < objects.length ∧ e.objName = (objects.getD j default).name ∧
      ∀ r ∈ e.rows, ∃ cm ∈ get_extinction_corrected_mag
          (objects.getD j default) (instrumental_magnitudes.getD j [])
          (extinction_coefficient objects
            (get_indexes_of_std_and_no_std objects).1
            instrumental_magnitudes).1,
        cm.day = e.day ∧ r.jd_time = cm.jd_time ∧ r.ce_mag = cm.ce_mag ∧
        r.inst_mag = cm.inst_mag ∧ r.filt = cm.filt := by
  simp only [process_instrumental_magnitudes, calculate_calibrated_mag] at he
  refine calibrated_magnitudes_trace objects _ _ _
    (fun j => get_extinction_corrected_mag (objects.getD j default)
      (instrumental_magnitudes.getD j [])
      (extinction_coefficient objects
        (get_indexes_of_std_and_no_std objects).1
        instrumental_magnitudes).1) ?_ e he
  intro i hi
  have hmem_lt : ∀ x, x ∈ (get_indexes_of_std_and_no_std objects).1 ++
      (get_indexes_of_std_and_no_std objects).2 → x < objects.length := by
    intro x hx
    unfold get_indexes_of_std_and_no_std at hx
    rcases List.mem_append.mp hx with h' | h' <;>
      exact List.mem_range.mp (List.mem_filter.mp h').1
  have hlen : ((get_indexes_of_std_and_no_std objects).1 ++
      (get_indexes_of_std_and_no_std objects).2).length = objects.length := by
    unfold get_indexes_of_std_and_no_std
    rw [List.length_append]
    have := length_filter_partition
      (fun i => (objects.getD i default).is_standard)
      (List.range objects.length)
    rw [List.length_range] at this
    exact this
  have hi_lt : i < ((get_indexes_of_std_and_no_std objects).1 ++
      (get_indexes_of_std_and_no_std objects).2).length := by
    rw [hlen]
    exact hmem_lt i hi
  constructor
  · exact hmem_lt _ (getD_mem_of_lt _ _ _ hi_lt)
  · rw [← List.map_append]
    exact getD_map_of_lt _ _ _ _ 0 hi_lt

/-- Witness for `calibrated_attribution`: in a concrete two-object pipeline
run the emission attributed to `s1` traces to `s1`'s own corrected
magnitudes. -/
theorem calibrated_attribution_witness :
    ∃ j, j < ([⟨"s1", true, some 10, some 9, none⟩,
        ⟨"s2", true, some 12, some 10, none⟩] : List CatalogObject).length ∧
      (⟨"s1", 5, [⟨⟨5, 5, []⟩, 10, 9, 10, Filt.B⟩,
          ⟨⟨5, 5, [1]⟩, 9, 8, 9, Filt.V⟩]⟩ : CalEmission).objName =
        (([⟨"s1", true, some 10, some 9, none⟩,
          ⟨"s2", true, some 12, some 10, none⟩] :
            List CatalogObject).getD j default).name ∧
      ∀ r ∈ (⟨"s1", 5, [⟨⟨5, 5, []⟩, 10, 9, 10, Filt.B⟩,
          ⟨⟨5, 5, [1]⟩, 9, 8, 9, Filt.V⟩]⟩ : CalEmission).rows,
        ∃ cm ∈ get_extinction_corrected_mag
            (([⟨"s1", true, some 10, some 9, none⟩,
              ⟨"s2", true, some 12, some 10, none⟩] :
                List CatalogObject).getD j default)
            ([[[⟨⟨5, 5, []⟩, some 10, 1, Filt.B⟩,
                ⟨⟨5, 5, [1]⟩, some 9, 1, Filt.V⟩]],
              [[⟨⟨5, 6, []⟩, some 13, 2, Filt.B⟩,
                ⟨⟨5, 6, [1]⟩, some 10, 1, Filt.V⟩]]].getD j [])
            (extinction_coefficient
              [⟨"s1", true, some 10, some 9, none⟩,
               ⟨"s2", true, some 12, some 10, none⟩]
              (get_indexes_of_std_and_no_std
                [⟨"s1", true, some 10, some 9, none⟩,
                 ⟨"s2", true, some 12, some 10, none⟩]).1
              [[[⟨⟨5, 5, []⟩, some 10, 1, Filt.B⟩,
                 ⟨⟨5, 5, [1]⟩, some 9, 1, Filt.V⟩]],
               [[⟨⟨5, 6, []⟩, some 13, 2, Filt.B⟩,
                 ⟨⟨5, 6, [1]⟩, some 10, 1, Filt.V⟩]]]).1,
          cm.day = (⟨"s1", 5, [⟨⟨5, 5, []⟩, 10, 9, 10, Filt.B⟩,
              ⟨⟨5, 5, [1]⟩, 9, 8, 9, Filt.V⟩]⟩ : CalEmission).day ∧
          r.jd_time = cm.jd_time ∧ r.ce_mag = cm.ce_mag ∧
          r.inst_mag = cm.inst_mag ∧ r.filt = cm.filt :=
  calibrated_attribution
    [⟨"s1", true, some 10, some 9, none⟩,
     ⟨"s2", true, some 12, some 10, none⟩]
    [[[⟨⟨5, 5, []⟩, some 10, 1, Filt.B⟩, ⟨⟨5, 5, [1]⟩, some 9, 1, Filt.V⟩]],
     [[⟨⟨5, 6, []⟩, some 13, 2, Filt.B⟩, ⟨⟨5, 6, [1]⟩, some 10, 1, Filt.V⟩]]]
    ⟨"s1", 5, [⟨⟨5, 5, []⟩, 10, 9, 10, Filt.B⟩,
      ⟨⟨5, 5, [1]⟩, 9, 8, 9, Filt.V⟩]⟩
    (by with_unfolding_all decide)
